import Mathlib

set_option linter.unusedVariables false

/-
Verification of the tensor boundary conversion layer of
spacy_curated_transformers/models/architectures.py.

The embedding models:
  - an Ints1d piece-identifier sequence as a list of integers;
  - a float tensor of shape (seq x hidden) as a list of rows, each row a
    list of rationals (exact values stand in for device floats; every fact
    proved here is about shapes, copying and zero-filling, which the float
    representation realises exactly);
  - a float tensor of shape (batch x seq x hidden) as a list of such
    matrices, indexed by batch position;
  - Python exceptions (ValueError, AssertionError, IndexError on an empty
    max or negative index) as Except / Option results;
  - device transfer (xp2torch, torch2xp, torch.device) as the identity,
    since it changes neither shapes nor values.
-/

namespace Architectures

/-- One piece-identifier sequence of a document (thinc Ints1d). -/
abbrev Ints1d := List Int

/-- A (seq x hidden) float matrix (thinc Floats2d): a list of rows. -/
abbrev Floats2d := List (List Rat)

/-- A (batch x seq x hidden) float tensor: one Floats2d per batch entry. -/
abbrev Floats3d := List Floats2d

/-- The failures of the pad conversion: Python max() on an empty
generator raises ValueError, and an over-long sequence raises the
descriptive ValueError built in the body of the function. -/
inductive ConvertInputsError
  | emptyBatch
  | sequenceTooLong (max_seq_len : Nat) (max_model_seq_len : Nat)
deriving DecidableEq

/-- One row of the padded buffer: numpy full prefills the row with
padding_idx over max_seq_len positions and the slice assignment
Xt[i, :span_len] = span overwrites the first span_len entries. -/
def padRow (max_seq_len : Nat) (padding_idx : Int) (span : Ints1d) : Ints1d :=
  span ++ (List.replicate max_seq_len padding_idx).drop span.length

/-- The padded buffer: the loop over range(len(X)) writes row i from
sequence i, so the buffer is the row transform applied to every entry. -/
def paddedBatch (max_seq_len : Nat) (padding_idx : Int) (X : List Ints1d) :
    List Ints1d :=
  X.map (padRow max_seq_len padding_idx)

/-- Embedding of _convert_inputs (architectures.py lines 714-748): compute
the largest sequence size, reject the batch when it exceeds
max_model_seq_len, otherwise build the padded (N x max_seq_len) buffer.
The error cases return before the padded buffer is built, exactly as the
Python raise statements abort before the numpy allocation. -/
def _convert_inputs (max_model_seq_len : Nat) (padding_idx : Int)
    (X : List Ints1d) : Except ConvertInputsError (List Ints1d) :=
  match (X.map List.length).max? with
  | none => .error .emptyBatch
  | some max_seq_len =>
    if max_model_seq_len < max_seq_len then
      .error (.sequenceTooLong max_seq_len max_model_seq_len)
    else
      .ok (paddedBatch max_seq_len padding_idx X)

/-- thinc ops.alloc1f: a freshly allocated zero vector. -/
def alloc1f (n : Nat) : List Rat := List.replicate n 0

/-- Embedding of the closure convert_from_torch_backward defined inside
_convert_inputs (lines 743-745): the incoming gradient is ignored and one
zero buffer per input sequence is returned. -/
def convert_from_torch_backward {D : Type} (X : List Ints1d) (d_inputs : D) :
    List (List Rat) :=
  X.map fun x => alloc1f x.length

/-- Extract the payload of a successful Except, with a default. -/
def okD {ε α : Type} (e : Except ε α) (d : α) : α :=
  match e with
  | .ok a => a
  | .error _ => d

theorem nat_max_le_iff (a b c : Nat) : b ⊔ c ≤ a ↔ b ≤ a ∧ c ≤ a :=
  max_le_iff

theorem mem_le_of_max?_eq_some {l : List Nat} {m : Nat}
    (h : l.max? = some m) : ∀ b ∈ l, b ≤ m :=
  (List.max?_le_iff nat_max_le_iff h).mp (le_refl m)

theorem max?_mem_nat {l : List Nat} {m : Nat} (h : l.max? = some m) :
    m ∈ l :=
  List.max?_mem max_choice h

/-- The slice output[i, :len, :] of a (batch x seq x hidden) tensor:
row block i of the batch, truncated to the first len timesteps. -/
def sliceOutput (output : Floats3d) (i : Nat) (len : Nat) : Floats2d :=
  (output.getD i []).take len

/-- Embedding of _convert_outputs (architectures.py lines 751-777).
model_inputs supplies the true lengths, all_outputs is the list of
per-layer (batch x seq x hidden) tensors of the encoder output. In
full mode every layer is sliced per document; in last-layer mode only
all_outputs[-1] is sliced and wrapped in a one-element list. torch2xp
is the identity here, so the return value coincides with the retained
nested list Yt. -/
def _convert_outputs (all_layer_outputs : Bool) (model_inputs : List Ints1d)
    (all_outputs : List Floats3d) : List (List Floats2d) :=
  if all_layer_outputs then
    (model_inputs.map List.length).enum.map fun p =>
      all_outputs.map fun output => sliceOutput output p.1 p.2
  else
    (model_inputs.map List.length).enum.map fun p =>
      [sliceOutput (all_outputs.getD (all_outputs.length - 1) []) p.1 p.2]

theorem convert_outputs_length (b : Bool) (X : List Ints1d)
    (T : List Floats3d) :
    (_convert_outputs b X T).length = X.length := by
  unfold _convert_outputs
  cases b <;> simp [List.enum_length]

theorem enum_map_getD {α β : Type} (g : Nat × α → β) (l : List α) (d : β)
    {i : Nat} (hi : i < l.length) :
    (l.enum.map g).getD i d = g (i, l[i]) := by
  have hlt : i < (l.enum.map g).length := by
    simpa [List.enum_length] using hi
  rw [List.getD_eq_getElem _ _ hlt, List.getElem_map, List.getElem_enum]

theorem convert_outputs_getD (b : Bool) (X : List Ints1d)
    (T : List Floats3d) {i : Nat} (hi : i < X.length) :
    (_convert_outputs b X T).getD i [] =
      if b then
        T.map fun output => sliceOutput output i ((X.getD i []).length)
      else
        [sliceOutput (T.getD (T.length - 1) []) i ((X.getD i []).length)] := by
  have hXi : X.getD i [] = X[i] := List.getD_eq_getElem X [] hi
  have hmi : i < (X.map List.length).length := by simpa using hi
  unfold _convert_outputs
  cases b
  · show ((X.map List.length).enum.map fun p =>
        [sliceOutput (T.getD (T.length - 1) []) p.1 p.2]).getD i [] =
      [sliceOutput (T.getD (T.length - 1) []) i ((X.getD i []).length)]
    rw [enum_map_getD _ _ _ hmi]
    simp only [List.getElem_map, hXi]
  · show ((X.map List.length).enum.map fun p =>
        T.map fun output => sliceOutput output p.1 p.2).getD i [] =
      T.map fun output => sliceOutput output i ((X.getD i []).length)
    rw [enum_map_getD _ _ _ hmi]
    simp only [List.getElem_map, hXi]

/-- C9: applied to an empty batch, the pad conversion fails with the
empty-max error (Python max() over an empty generator), not with the
sequence-too-long error and not with a zero-row padded tensor. -/
theorem convert_inputs_empty_batch (max_model_seq_len : Nat)
    (padding_idx : Int) :
    _convert_inputs max_model_seq_len padding_idx [] =
      .error .emptyBatch :=
  rfl

/-- C2: a batch holding a sequence longer than max_model_seq_len is
rejected with the sequence-too-long error carrying the batch maximum, and
the result is an error, never a padded buffer. -/
theorem convert_inputs_rejects_too_long
    (max_model_seq_len : Nat) (padding_idx : Int) (X : List Ints1d)
    (x : Ints1d) (maxLen : Nat)
    (hx : x ∈ X) (hlong : max_model_seq_len < x.length)
    (hmax : (X.map List.length).max? = some maxLen) :
    _convert_inputs max_model_seq_len padding_idx X =
      .error (.sequenceTooLong maxLen max_model_seq_len)
    ∧ max_model_seq_len < maxLen := by
  have hxle : x.length ≤ maxLen :=
    mem_le_of_max?_eq_some hmax x.length (List.mem_map_of_mem List.length hx)
  have hlt : max_model_seq_len < maxLen := lt_of_lt_of_le hlong hxle
  refine ⟨?_, hlt⟩
  unfold _convert_inputs
  rw [hmax]
  simp [hlt]

theorem convert_inputs_rejects_too_long_witness :
    _convert_inputs 2 0 [[5, 6, 7], [1]] =
      .error (.sequenceTooLong 3 2) :=
  (convert_inputs_rejects_too_long 2 0 [[5, 6, 7], [1]] [5, 6, 7] 3
    (by decide) (by decide) (by decide)).1

/-- C1: on a non-empty batch whose sequences all fit inside
max_model_seq_len, the pad conversion succeeds and yields a buffer of N
rows, each row of length max(lengths); row i carries sequence i in order
on its first length[i] positions and padding_idx on every later
position. -/
theorem convert_inputs_pads_correctly
    (max_model_seq_len : Nat) (padding_idx : Int) (X : List Ints1d)
    (maxLen : Nat)
    (hmax : (X.map List.length).max? = some maxLen)
    (hbound : ∀ x ∈ X, x.length ≤ max_model_seq_len) :
    _convert_inputs max_model_seq_len padding_idx X =
      .ok (paddedBatch maxLen padding_idx X)
    ∧ (paddedBatch maxLen padding_idx X).length = X.length
    ∧ ∀ i, i < X.length →
        ((paddedBatch maxLen padding_idx X).getD i []).length = maxLen
        ∧ (∀ j, j < (X.getD i []).length →
            ((paddedBatch maxLen padding_idx X).getD i []).getD j 0 =
              (X.getD i []).getD j 0)
        ∧ (∀ j, (X.getD i []).length ≤ j → j < maxLen →
            ((paddedBatch maxLen padding_idx X).getD i []).getD j 0 =
              padding_idx) := by
  have hmaxmem : maxLen ∈ X.map List.length := max?_mem_nat hmax
  obtain ⟨x0, hx0, hx0len⟩ := List.mem_map.mp hmaxmem
  have hml : maxLen ≤ max_model_seq_len := hx0len ▸ hbound x0 hx0
  have hok : _convert_inputs max_model_seq_len padding_idx X =
      .ok (paddedBatch maxLen padding_idx X) := by
    unfold _convert_inputs
    rw [hmax]
    simp [Nat.not_lt.mpr hml]
  refine ⟨hok, by simp [paddedBatch], ?_⟩
  intro i hi
  have hilt : i < (paddedBatch maxLen padding_idx X).length := by
    simpa [paddedBatch] using hi
  have hrow : (paddedBatch maxLen padding_idx X).getD i [] =
      X[i] ++ List.replicate (maxLen - (X[i]).length) padding_idx := by
    rw [List.getD_eq_getElem _ _ hilt]
    simp [paddedBatch, padRow, List.drop_replicate]
  have hspan_le : (X[i]).length ≤ maxLen :=
    mem_le_of_max?_eq_some hmax _
      (List.mem_map_of_mem List.length (List.getElem_mem hi))
  have hXi : X.getD i [] = X[i] := List.getD_eq_getElem X [] hi
  rw [hrow, hXi]
  refine ⟨by simp; omega, ?_, ?_⟩
  · intro j hj
    have hjlt :
        j < (X[i] ++
          List.replicate (maxLen - (X[i]).length) padding_idx).length := by
      simp
      omega
    rw [List.getD_eq_getElem _ _ hjlt, List.getElem_append_left hj,
      List.getD_eq_getElem _ _ hj]
  · intro j hge hjmax
    have hjlt :
        j < (X[i] ++
          List.replicate (maxLen - (X[i]).length) padding_idx).length := by
      simp
      omega
    rw [List.getD_eq_getElem _ _ hjlt, List.getElem_append_right hge]
    simp

theorem convert_inputs_pads_correctly_witness :
    _convert_inputs 4 9 [[1, 2, 3], [7]] =
      .ok (paddedBatch 3 9 [[1, 2, 3], [7]])
    ∧ ((paddedBatch 3 9 [[1, 2, 3], [7]]).getD 1 []).length = 3
    ∧ ((paddedBatch 3 9 [[1, 2, 3], [7]]).getD 1 []).getD 0 0 = 7
    ∧ ((paddedBatch 3 9 [[1, 2, 3], [7]]).getD 1 []).getD 2 0 = 9 := by
  have h := convert_inputs_pads_correctly 4 9 [[1, 2, 3], [7]] 3
    (by decide) (by decide)
  have h1 := h.2.2 1 (by decide)
  exact ⟨h.1, h1.1, h1.2.1 0 (by decide), h1.2.2 2 (by decide) (by decide)⟩

/-- C3: for a batch of N inputs and a well-shaped layered encoder output
(one tensor per layer, batch dimension N, at least length[i] timesteps in
batch row i), the un-pad conversion returns exactly N per-document lists
in input order; document i holds num_hidden_layers + 1 layers in full
mode and 1 layer in last-layer mode, and every returned layer of
document i is the corresponding layer tensor at batch position i
truncated to exactly length[i] timesteps. -/
theorem convert_outputs_unpads
    (num_hidden_layers : Nat) (b : Bool) (X : List Ints1d)
    (T : List Floats3d)
    (hL : T.length = num_hidden_layers + 1)
    (hbatch : ∀ t ∈ T, t.length = X.length)
    (hseq : ∀ t ∈ T, ∀ i, i < X.length →
      (X.getD i []).length ≤ (t.getD i []).length) :
    (_convert_outputs b X T).length = X.length
    ∧ ∀ i, i < X.length →
        ((_convert_outputs b X T).getD i []).length =
          (if b then num_hidden_layers + 1 else 1)
        ∧ ∀ k, k < ((_convert_outputs b X T).getD i []).length →
            (((_convert_outputs b X T).getD i []).getD k []).length =
              (X.getD i []).length
            ∧ ((_convert_outputs b X T).getD i []).getD k [] =
                ((T.getD (if b then k else T.length - 1) []).getD i []).take
                  (X.getD i []).length := by
  refine ⟨convert_outputs_length b X T, ?_⟩
  intro i hi
  rw [convert_outputs_getD b X T hi]
  cases b
  · simp only [Bool.false_eq_true, if_false]
    have hTpos : 0 < T.length := by omega
    have hTlt : T.length - 1 < T.length := Nat.sub_lt hTpos one_pos
    have hTlast : T.getD (T.length - 1) [] = T[T.length - 1] :=
      List.getD_eq_getElem T [] hTlt
    have hrowlen : (X.getD i []).length ≤
        ((T[T.length - 1]).getD i []).length :=
      hseq (T[T.length - 1]) (List.getElem_mem hTlt) i hi
    refine ⟨rfl, ?_⟩
    intro k hk
    have hk0 : k = 0 := by simpa using hk
    subst hk0
    constructor
    · simp only [List.getD_cons_zero, sliceOutput, hTlast, List.length_take]
      omega
    · simp only [List.getD_cons_zero, sliceOutput]
  · simp only [if_true]
    refine ⟨by simpa using hL, ?_⟩
    intro k hk
    have hkT : k < T.length := by simpa using hk
    have hTk : T.getD k [] = T[k] := List.getD_eq_getElem T [] hkT
    have hrowlen : (X.getD i []).length ≤ ((T[k]).getD i []).length :=
      hseq (T[k]) (List.getElem_mem hkT) i hi
    have hgetk : (T.map fun output =>
        sliceOutput output i ((X.getD i []).length)).getD k [] =
        sliceOutput (T[k]) i ((X.getD i []).length) := by
      rw [List.getD_eq_getElem _ _ (by simpa using hkT), List.getElem_map]
    rw [hgetk, hTk]
    constructor
    · simp only [sliceOutput, List.length_take]
      omega
    · simp only [sliceOutput]

theorem convert_outputs_unpads_witness :
    (_convert_outputs true [[1, 2, 3], [4]]
      [[[[], [], []], [[], [], []]], [[[], [], []], [[], [], []]]]).length = 2
    ∧ ((_convert_outputs true [[1, 2, 3], [4]]
      [[[[], [], []], [[], [], []]], [[[], [], []], [[], [], []]]]).getD 1
        []).length = 2
    ∧ (((_convert_outputs true [[1, 2, 3], [4]]
      [[[[], [], []], [[], [], []]], [[[], [], []], [[], [], []]]]).getD 1
        []).getD 0 []).length = 1 := by
  have h := convert_outputs_unpads 1 true [[1, 2, 3], [4]]
    [[[[], [], []], [[], [], []]], [[[], [], []], [[], [], []]]]
    (by decide) (by decide) (by decide)
  have h1 := h.2 1 (by decide)
  exact ⟨h.1, h1.1, (h1.2 0 (by rw [h1.1]; decide)).1⟩

/-- C4: on the same inputs, last-layer mode and full mode return the same
number of documents; each document gets 1 layer in last-layer mode and
one per encoder tensor in full mode, and the single layer of last-layer
mode is exactly the final layer entry of full mode for every document. -/
theorem convert_outputs_last_layer_agrees
    (X : List Ints1d) (T : List Floats3d) (hne : T ≠ []) :
    (_convert_outputs false X T).length = (_convert_outputs true X T).length
    ∧ ∀ i, i < X.length →
        ((_convert_outputs false X T).getD i []).length = 1
        ∧ ((_convert_outputs true X T).getD i []).length = T.length
        ∧ ((_convert_outputs false X T).getD i []).getD 0 [] =
            ((_convert_outputs true X T).getD i []).getD (T.length - 1) [] := by
  have hTlt : T.length - 1 < T.length :=
    Nat.sub_lt (List.length_pos.mpr hne) one_pos
  refine ⟨by rw [convert_outputs_length, convert_outputs_length], ?_⟩
  intro i hi
  rw [convert_outputs_getD false X T hi, convert_outputs_getD true X T hi]
  simp only [Bool.false_eq_true, if_false, if_true]
  refine ⟨rfl, by simp, ?_⟩
  simp only [List.getD_cons_zero]
  rw [List.getD_eq_getElem
      (T.map fun output => sliceOutput output i ((X.getD i []).length)) []
      (by simpa using hTlt),
    List.getElem_map, List.getD_eq_getElem T [] hTlt]

theorem convert_outputs_last_layer_agrees_witness :
    ((_convert_outputs false [[7], [8, 9]]
      [[[[], []], [[], []]], [[[], []], [[], []]]]).getD 0 []).getD 0 [] =
    ((_convert_outputs true [[7], [8, 9]]
      [[[[], []], [[], []]], [[[], []], [[], []]]]).getD 0 []).getD 1 [] :=
  ((convert_outputs_last_layer_agrees [[7], [8, 9]]
    [[[[], []], [[], []]], [[[], []], [[], []]]]
    (by decide)).2 0 (by decide)).2.2

/-- C5: the backward closure of the pad conversion ignores the incoming
gradient value and returns exactly one buffer per input sequence, in
input order, each buffer all zeros with the length of its own
sequence. -/
theorem convert_from_torch_backward_zero_grads {D : Type}
    (X : List Ints1d) (d_inputs : D) :
    (convert_from_torch_backward X d_inputs).length = X.length
    ∧ ∀ i, i < X.length →
        ((convert_from_torch_backward X d_inputs).getD i []).length =
          (X.getD i []).length
        ∧ ∀ g ∈ (convert_from_torch_backward X d_inputs).getD i [], g = 0 := by
  refine ⟨by simp [convert_from_torch_backward], ?_⟩
  intro i hi
  have hrow : (convert_from_torch_backward X d_inputs).getD i [] =
      alloc1f ((X[i]).length) := by
    rw [List.getD_eq_getElem _ _
      (by simpa [convert_from_torch_backward] using hi)]
    simp [convert_from_torch_backward]
  rw [hrow, List.getD_eq_getElem X [] hi]
  constructor
  · simp [alloc1f]
  · intro g hg
    simp only [alloc1f] at hg
    exact List.eq_of_mem_replicate hg

theorem convert_from_torch_backward_zero_grads_witness :
    (convert_from_torch_backward [[1, 2], [3]] (5 : Nat)).length = 2
    ∧ ((convert_from_torch_backward [[1, 2], [3]] (5 : Nat)).getD 0
        []).length = 2 := by
  have h := convert_from_torch_backward_zero_grads [[1, 2], [3]] (5 : Nat)
  exact ⟨h.1, (h.2 0 (by decide)).1⟩

/-- The return value of the un-pad backward closure: the Python
ArgsKwargs(args=(Yt_flat,), kwargs=\x7b"grad_tensors": dYt_flat\x7d). -/
structure ArgsKwargs where
  args : List Floats2d
  grad_tensors : List Floats2d
deriving DecidableEq

/-- Embedding of the closure convert_for_torch_backward defined inside
_convert_outputs (lines 779-787): the retained nested forward outputs Yt
and the incoming nested gradients dY are flattened; the Python assert on
equal flattened lengths is the some branch, its failure the none. -/
def convert_for_torch_backward (Yt : List (List Floats2d))
    (dY : List (List Floats2d)) : Option ArgsKwargs :=
  if Yt.flatten.length = dY.flatten.length then
    some { args := Yt.flatten, grad_tensors := dY.flatten }
  else
    none

/-- C6: for every forward pass of the un-pad conversion and every
incoming nested gradient, the backward closure fails its assertion
exactly when the flattened gradient count differs from the flattened
forward-output count, and on matching counts it returns the two
flattened lists in lock-step order. -/
theorem convert_for_torch_backward_shape_check
    (b : Bool) (X : List Ints1d) (T : List Floats3d)
    (dY : List (List Floats2d)) :
    (convert_for_torch_backward (_convert_outputs b X T) dY = none ↔
      (_convert_outputs b X T).flatten.length ≠ dY.flatten.length)
    ∧ ((_convert_outputs b X T).flatten.length = dY.flatten.length →
        convert_for_torch_backward (_convert_outputs b X T) dY =
          some { args := (_convert_outputs b X T).flatten,
                 grad_tensors := dY.flatten }) := by
  unfold convert_for_torch_backward
  constructor
  · by_cases h :
      (_convert_outputs b X T).flatten.length = dY.flatten.length <;>
      simp [h]
  · intro h
    simp [h]

theorem convert_for_torch_backward_shape_check_witness :
    convert_for_torch_backward
        (_convert_outputs false [[5]] [[[[]]]]) [[[[]]]] =
      some { args := (_convert_outputs false [[5]] [[[[]]]]).flatten,
             grad_tensors := ([[[[]]]] :
               List (List Floats2d)).flatten } :=
  (convert_for_torch_backward_shape_check false [[5]] [[[[]]]]
    [[[[]]]]).2 (by decide)

/-- Embedding of transformer_model_forward (lines 648-660): the model
runs its single composed layer, and the returned backward closure runs
the layer backward closure for its side effects on the wrapped stages
and then hands the empty list upward. -/
def transformer_model_forward {DocsT OutT GradInT GradLayerT GradUpT : Type}
    (layer : DocsT → Bool → OutT × (GradInT → GradLayerT))
    (docs : DocsT) (is_train : Bool) : OutT × (GradInT → List GradUpT) :=
  ((layer docs is_train).1, fun dY =>
    let _dX := (layer docs is_train).2 dY
    [])

/-- C7: the forward operation of the composed transformer model returns
the wrapped layer output together with a backward closure that yields
the empty gradient list for every incoming gradient: nothing flows back
into the piece identifiers. -/
theorem transformer_model_forward_no_piece_grads
    {DocsT OutT GradInT GradLayerT GradUpT : Type}
    (layer : DocsT → Bool → OutT × (GradInT → GradLayerT))
    (docs : DocsT) (is_train : Bool) (dY : GradInT) :
    (@transformer_model_forward DocsT OutT GradInT GradLayerT GradUpT
        layer docs is_train).1 = (layer docs is_train).1
    ∧ (@transformer_model_forward DocsT OutT GradInT GradLayerT GradUpT
        layer docs is_train).2 dY = [] :=
  ⟨rfl, rfl⟩

/-- A composed transformer model as the checkpoint loader sees it: the
wrapped encoder state (its parameters and its device) plus every other
part of the model object, which the loader never touches. -/
structure TorchTransformerModel (Params Device Rest : Type) where
  encoder_params : Params
  encoder_device : Device
  rest : Rest

/-- Embedding of build_pytorch_checkpoint_loader_v1 (lines 792-814).
The external effects are parameters: torch_load reads the checkpoint at
a path onto a device, convert_pretrained_model_for_encoder remaps the
key layout against the current encoder, get_torch_default_device picks
the target device. The returned callback loads, remaps, installs the
weights, moves the encoder, and returns the model. -/
def build_pytorch_checkpoint_loader_v1
    {PathT Params Device Rest : Type}
    (torch_load : PathT → Device → Params)
    (convert_pretrained_model_for_encoder : Params → Params → Params)
    (get_torch_default_device : Device)
    (path : PathT) :
    TorchTransformerModel Params Device Rest →
      TorchTransformerModel Params Device Rest :=
  fun model =>
    let device := get_torch_default_device
    let params := torch_load path device
    let remapped :=
      convert_pretrained_model_for_encoder model.encoder_params params
    { model with encoder_params := remapped, encoder_device := device }

/-- C8: the callback built by the checkpoint loader returns the model it
was given with only the encoder parameters (set to the remapped
checkpoint weights) and the encoder device changed; every other part of
the model is returned unchanged. -/
theorem checkpoint_loader_mutates_only_encoder
    {PathT Params Device Rest : Type}
    (torch_load : PathT → Device → Params)
    (convert_pretrained_model_for_encoder : Params → Params → Params)
    (get_torch_default_device : Device) (path : PathT)
    (model : TorchTransformerModel Params Device Rest) :
    (build_pytorch_checkpoint_loader_v1 torch_load
        convert_pretrained_model_for_encoder get_torch_default_device
        path model).rest = model.rest
    ∧ (build_pytorch_checkpoint_loader_v1 torch_load
        convert_pretrained_model_for_encoder get_torch_default_device
        path model).encoder_params =
      convert_pretrained_model_for_encoder model.encoder_params
        (torch_load path get_torch_default_device)
    ∧ (build_pytorch_checkpoint_loader_v1 torch_load
        convert_pretrained_model_for_encoder get_torch_default_device
        path model).encoder_device = get_torch_default_device :=
  ⟨rfl, rfl, rfl⟩

/-- A value stored under a key of the grad_scaler_config mapping. -/
inductive ConfigValue
  | bool (b : Bool)
  | num (q : Rat)
deriving DecidableEq

/-- The grad_scaler_config argument of _pytorch_encoder: either a spacy
SimpleFrozenDict (the frozen default is the empty one) or an ordinary
mutable dict, both carried as insertion-ordered key-value lists. -/
inductive GradScalerConfig
  | frozenDict (entries : List (String × ConfigValue))
  | mutableDict (entries : List (String × ConfigValue))

/-- Embedding of the grad_scaler_config normalisation at the start of
_pytorch_encoder (lines 677-682): a SimpleFrozenDict argument is
replaced by a fresh empty mutable dict, and when the key "enabled" is
absent it is inserted with the mixed_precision flag as its value. -/
def _pytorch_encoder_grad_scaler_config (mixed_precision : Bool)
    (grad_scaler_config : GradScalerConfig) :
    List (String × ConfigValue) :=
  match grad_scaler_config with
  | .frozenDict _ =>
    match ([] : List (String × ConfigValue)).lookup "enabled" with
    | some _ => []
    | none => [("enabled", ConfigValue.bool mixed_precision)]
  | .mutableDict entries =>
    match entries.lookup "enabled" with
    | some _ => entries
    | none => entries ++ [("enabled", ConfigValue.bool mixed_precision)]

/-- C10: when grad_scaler_config is the frozen default it is replaced by
a fresh dict and "enabled" is set to mixed_precision; when a mutable
mapping without the key "enabled" is supplied, "enabled" is appended
with the mixed_precision value; a caller-supplied "enabled" entry leaves
the mapping untouched. -/
theorem pytorch_encoder_grad_scaler_enabled
    (mixed_precision : Bool) (entries : List (String × ConfigValue)) :
    _pytorch_encoder_grad_scaler_config mixed_precision
        (.frozenDict []) =
      [("enabled", ConfigValue.bool mixed_precision)]
    ∧ (entries.lookup "enabled" = none →
        _pytorch_encoder_grad_scaler_config mixed_precision
            (.mutableDict entries) =
          entries ++ [("enabled", ConfigValue.bool mixed_precision)])
    ∧ ∀ v, entries.lookup "enabled" = some v →
        _pytorch_encoder_grad_scaler_config mixed_precision
            (.mutableDict entries) = entries := by
  refine ⟨rfl, ?_, ?_⟩
  · intro h
    simp [_pytorch_encoder_grad_scaler_config, h]
  · intro v h
    simp [_pytorch_encoder_grad_scaler_config, h]

theorem pytorch_encoder_grad_scaler_enabled_witness :
    _pytorch_encoder_grad_scaler_config true
        (.mutableDict [("init_scale", ConfigValue.num 2)]) =
      [("init_scale", ConfigValue.num 2),
        ("enabled", ConfigValue.bool true)]
    ∧ _pytorch_encoder_grad_scaler_config false
        (.mutableDict [("enabled", ConfigValue.bool true)]) =
      [("enabled", ConfigValue.bool true)] := by
  have h1 := pytorch_encoder_grad_scaler_enabled true
    [("init_scale", ConfigValue.num 2)]
  have h2 := pytorch_encoder_grad_scaler_enabled false
    [("enabled", ConfigValue.bool true)]
  exact ⟨h1.2.1 (by decide), h2.2.2 (ConfigValue.bool true) (by decide)⟩

end Architectures
